import Mathlib

/-!
Shallow embedding of the core of the echotextAI repository:
the output cleaners, local fallback generators and generation pipeline of
`src/utils/ai_summarizer.py`, and the lazy model-loading guard plus
transcription entry point of `src/utils/speech_to_text.py`.

Strings are modelled as `List Char` internally (`String` at the API
boundary).  Python regular-expression behaviour (leftmost search, greedy
`\s*` with backtracking, `.` not matching a newline) is embedded by
executable structural scanners that reproduce the exact semantics of the
three patterns the source uses.
-/

set_option maxRecDepth 100000

namespace EchoText

/-- Python `\s` / `str.strip()` whitespace, restricted to the ASCII
whitespace characters that can occur in the texts handled here. -/
def isPySpace (c : Char) : Bool :=
  c = ' ' || c = '\t' || c = '\n' || c = '\r' || c = '\x0b' || c = '\x0c'

/-- Python `str.strip()`: drop leading and trailing whitespace. -/
def pyStrip (l : List Char) : List Char :=
  ((l.dropWhile isPySpace).reverse.dropWhile isPySpace).reverse

/-- One-pass automaton for Python `re.split(r"\n\s*\n", s)`.

`mode 0`: scanning a block (`acc` holds the reversed block so far).
`mode 1`: a `'\n'` has been seen; `buf` holds (reversed) the whitespace
run read since it.  A further `'\n'` confirms a separator match; a
non-whitespace character aborts and folds `'\n'` and the buffer back into
the block.
`mode 2`: a separator has matched and the block was emitted; the greedy
match extends through every later `'\n'` of the whitespace run, while
trailing non-newline whitespace (`buf`) belongs to the next block. -/
def blkAux (mode : Nat) (acc buf : List Char) : List Char → List (List Char)
  | [] =>
      if mode = 0 then [acc.reverse]
      else if mode = 1 then [(buf ++ '\n' :: acc).reverse]
      else [buf.reverse]
  | c :: rest =>
      if mode = 0 then
        if c = '\n' then blkAux 1 acc [] rest
        else blkAux 0 (c :: acc) [] rest
      else if mode = 1 then
        if c = '\n' then acc.reverse :: blkAux 2 [] [] rest
        else if isPySpace c then blkAux 1 acc (c :: buf) rest
        else blkAux 0 (c :: (buf ++ '\n' :: acc)) [] rest
      else
        if c = '\n' then blkAux 2 [] [] rest
        else if isPySpace c then blkAux 2 [] (c :: buf) rest
        else blkAux 0 (c :: buf) [] rest

/-- `re.split(r"\n\s*\n", ...)` over a character list. -/
def pyBlocks (l : List Char) : List (List Char) :=
  blkAux 0 [] [] l

/-- The tail of a Python regex match `\s*(.+)` applied at a fixed
position (what follows `Q:` / `A:` / `Front:` / `Back:`): greedy `\s*`
with backtracking, then a nonempty greedy run of non-newline characters.
Returns the captured group. -/
def matchTail (rest : List Char) : Option (List Char) :=
  match rest.drop (rest.takeWhile isPySpace).length with
  | _ :: _ =>
      some ((rest.drop (rest.takeWhile isPySpace).length).takeWhile
        (fun x => !(x = '\n')))
  | [] =>
      match (rest.takeWhile isPySpace).reverse.dropWhile (fun x => x = '\n') with
      | c :: _ => some [c]
      | [] => none

/-- Python `re.search(label ++ "\s*(.+)", block)`: leftmost position
where the literal label matches and the tail pattern succeeds; returns
the captured group. -/
def searchLabel (label : List Char) : List Char → Option (List Char)
  | [] => none
  | c :: rest =>
      if (c :: rest).take label.length = label then
        match matchTail ((c :: rest).drop label.length) with
        | some g => some g
        | none => searchLabel label rest
      else searchLabel label rest

/-- Whether the literal `label` occurs as a substring of `l` (used to
state side conditions on question texts). -/
def hasLabel (label : List Char) : List Char → Bool
  | [] => false
  | c :: rest =>
      decide ((c :: rest).take label.length = label) || hasLabel label rest

/-- `tailsOK L v u = true` states that no nonempty suffix of `u`,
continued by `v`, starts with the literal `L`; under it a search for
`L` skips over `u` entirely. -/
def tailsOK (L v : List Char) : List Char → Bool
  | [] => true
  | c :: u =>
      !(decide ((c :: (u ++ v)).take L.length = L)) && tailsOK L v u

/-- `"\n\n".join` over blocks. -/
def joinBlocks : List (List Char) → List Char
  | [] => []
  | [b] => b
  | b :: bs => b ++ '\n' :: '\n' :: joinBlocks bs

/-- `"\n".join` over lines. -/
def joinLines : List (List Char) → List Char
  | [] => []
  | [b] => b
  | b :: bs => b ++ '\n' :: joinLines bs

def qLabel : List Char := ['Q', ':']
def aLabel : List Char := ['A', ':']

/-- Parsing of one block by `clean_quiz` (`ai_summarizer.py` lines
52–58): both regex searches must succeed; the stripped groups are the
question and answer. -/
def parseQuizBlock (b : List Char) : Option (List Char × List Char) :=
  match searchLabel qLabel b, searchLabel aLabel b with
  | some q, some a => some (pyStrip q, pyStrip a)
  | _, _ => none

/-- The rendered block `f"Q: {q}\nA: {a}"`. -/
def qaCard (p : List Char × List Char) : List Char :=
  'Q' :: ':' :: ' ' :: p.1 ++ '\n' :: 'A' :: ':' :: ' ' :: p.2

/-- The list of (question, answer) pairs `clean_quiz` keeps. -/
def cleanPairsQ (output : String) : List (List Char × List Char) :=
  (pyBlocks (pyStrip output.data)).filterMap parseQuizBlock

/-- The spec-side validity notion for a quiz block, following the
spec's words: the block contains both a non-empty `Q:` field and a
non-empty `A:` field (the field value taken up to stripping, as in the
rendered output).  Used only to compare the spec's description with the
code's behaviour. -/
def specQuizValid (b : List Char) : Bool :=
  match searchLabel qLabel b, searchLabel aLabel b with
  | some q, some a => !(pyStrip q).isEmpty && !(pyStrip a).isEmpty
  | _, _ => false

/-- `clean_quiz` (`ai_summarizer.py` lines 48–60). -/
def clean_quiz (output : String) : String :=
  if ((cleanPairsQ output).map qaCard).isEmpty then output
  else ⟨joinBlocks ((cleanPairsQ output).map qaCard)⟩

/-- Python `str.split()` with no argument: maximal runs of
non-whitespace characters. `acc` holds the current word reversed. -/
def wordsAux (acc : List Char) : List Char → List (List Char)
  | [] => if acc.isEmpty then [] else [acc.reverse]
  | c :: rest =>
      if isPySpace c then
        if acc.isEmpty then wordsAux [] rest
        else acc.reverse :: wordsAux [] rest
      else wordsAux (c :: acc) rest

def pyWords (l : List Char) : List (List Char) :=
  wordsAux [] l

/-- `" ".join` over words. -/
def joinWords : List (List Char) → List Char
  | [] => []
  | [w] => w
  | w :: ws => w ++ ' ' :: joinWords ws

/-- Python `str.title()`: a letter is uppercased when the previous
character is not cased (not a letter), lowercased otherwise. -/
def titleAux (prevCased : Bool) : List Char → List Char
  | [] => []
  | c :: rest =>
      if c.isAlpha then
        (if prevCased then c.toLower else c.toUpper) :: titleAux true rest
      else c :: titleAux false rest

def pyTitle (l : List Char) : List Char :=
  titleAux false l

/-- Python `str.lower()` (ASCII). -/
def pyLower (l : List Char) : List Char :=
  l.map Char.toLower

/-- Python `str.startswith(p)` for a single literal. -/
def startsWithQ (p : List Char) (l : List Char) : Bool :=
  l.take p.length = p

def frontLabel : List Char := ['F', 'r', 'o', 'n', 't', ':']
def backLabel : List Char := ['B', 'a', 'c', 'k', ':']

/-- The filler test of `clean_flashcards` (`ai_summarizer.py` line 79):
`front.lower().startswith(("it", "this", "however", "explain", "note"))`. -/
def cleanFiller (front : List Char) : Bool :=
  let lf := pyLower front
  startsWithQ "it".data lf || startsWithQ "this".data lf ||
  startsWithQ "however".data lf || startsWithQ "explain".data lf ||
  startsWithQ "note".data lf

/-- Parsing of one block by `clean_flashcards` (`ai_summarizer.py` lines
67–82): both searches must succeed, the stripped front has at most six
words and does not start with a filler word. -/
def parseFlashBlock (b : List Char) : Option (List Char × List Char) :=
  match searchLabel frontLabel b, searchLabel backLabel b with
  | some f, some bk =>
      if 6 < (pyWords (pyStrip f)).length then none
      else if cleanFiller (pyStrip f) then none
      else some (pyStrip f, pyStrip bk)
  | _, _ => none

/-- The rendered card `f"Front: {front}\nBack: {back}"`. -/
def fbCard (p : List Char × List Char) : List Char :=
  "Front: ".data ++ p.1 ++ '\n' :: "Back: ".data ++ p.2

/-- The list of (front, back) pairs `clean_flashcards` keeps. -/
def flashPairs (output : String) : List (List Char × List Char) :=
  (pyBlocks (pyStrip output.data)).filterMap parseFlashBlock

/-- `clean_flashcards` (`ai_summarizer.py` lines 63–84). -/
def clean_flashcards (output : String) : String :=
  if ((flashPairs output).map fbCard).isEmpty then output
  else ⟨joinBlocks ((flashPairs output).map fbCard)⟩

/-- One-pass automaton for Python
`re.split(r"(?<=[.!?])\s+", text)`: split at each maximal whitespace run
whose preceding character is `.`, `!` or `?`.

`mode 0`: scanning a sentence (`prev` is the previous character, `acc`
the reversed sentence so far); `mode 1`: consuming the whitespace run
after a split point. -/
def sentAux (mode : Nat) (prev : Char) (acc : List Char) :
    List Char → List (List Char)
  | [] => if mode = 1 then [[]] else [acc.reverse]
  | c :: rest =>
      if mode = 1 then
        if isPySpace c then sentAux 1 c [] rest
        else sentAux 0 c [c] rest
      else
        if (prev = '.' || prev = '!' || prev = '?') && isPySpace c then
          acc.reverse :: sentAux 1 c [] rest
        else sentAux 0 c (c :: acc) rest

/-- `re.split(r"(?<=[.!?])\s+", ...)` over a character list.  The dummy
previous character `'x'` reflects that the lookbehind cannot match at
position zero. -/
def pySentences (l : List Char) : List (List Char) :=
  sentAux 0 'x' [] l

/-- `_local_quiz` (`ai_summarizer.py` lines 88–101): sentences of more
than eight words, each stripped, the first five rendered as a generic
question with the sentence as answer. -/
def localQuizAnswers (text : String) : List (List Char) :=
  ((((pySentences text.data).filter
      (fun s => 8 < (pyWords s).length)).map pyStrip).take 5)

def localQuizBlocks (text : String) : List (List Char) :=
  (localQuizAnswers text).map
    (fun s => "Q: What does the following concept explain?\nA: ".data ++ s)

def localQuiz (text : String) : String :=
  if (localQuizBlocks text).isEmpty then "No quiz could be generated."
  else ⟨joinBlocks (localQuizBlocks text)⟩

/-- The filler test of `_local_flashcards` (`ai_summarizer.py` line
111): `s.lower().startswith(("it ", "this ", "however", "note"))`. -/
def localFiller (s : List Char) : Bool :=
  let ls := pyLower s
  startsWithQ "it ".data ls || startsWithQ "this ".data ls ||
  startsWithQ "however".data ls || startsWithQ "note".data ls

/-- The per-sentence keep test of `_local_flashcards` (lines 109–111):
at least eight words and no filler start. -/
def localKeep (s : List Char) : Bool :=
  !((pyWords s).length < 8) && !(localFiller s)

/-- The card built from a kept sentence (lines 114–115): front is the
first four words title-cased, back the stripped sentence. -/
def localCard (s : List Char) : List Char :=
  "Front: ".data ++ pyTitle (joinWords ((pyWords s).take 4)) ++
    '\n' :: "Back: ".data ++ pyStrip s

/-- The loop of `_local_flashcards` (lines 108–118): skip non-kept
sentences, append a card per kept sentence, break once `remaining`
cards have been produced (append-then-check, so `remaining = 0` still
yields one card, exactly as the Python loop does). -/
def flashLoop (remaining : Nat) : List (List Char) → List (List Char)
  | [] => []
  | s :: rest =>
      if localKeep s then
        localCard s ::
          (if remaining ≤ 1 then [] else flashLoop (remaining - 1) rest)
      else flashLoop remaining rest

def localFlashCards (text : String) : List (List Char) :=
  flashLoop 8 (pySentences text.data)

def localFlashcards (text : String) : String :=
  if (localFlashCards text).isEmpty then "No flashcards could be generated."
  else ⟨joinBlocks (localFlashCards text)⟩

/-- `_local_bullets` (`ai_summarizer.py` lines 123–125): strip, split
into sentences, emit the first eight prefixed with `"- "`. -/
def localBullets (text : String) : String :=
  ⟨joinLines (((pySentences (pyStrip text.data)).take 8).map
    (fun s => '-' :: ' ' :: s))⟩

/-- `generate_output` (`ai_summarizer.py` lines 129–172).  The remote
chat-completion call is modelled by its observable outcome: `none` for
any remote failure (network error, timeout, non-2xx status, malformed
response body — all caught by the bare `except`), `some content` for a
2xx response whose body carried `choices[0].message.content = content`. -/
def generate_output (text : String) (output_type : String)
    (remote : Option String) : String :=
  if (pyStrip text.data).isEmpty then "No input text provided."
  else
    match remote with
    | some content =>
        let result : String := ⟨pyStrip content.data⟩
        if output_type = "quiz" then clean_quiz result
        else if output_type = "flashcards" then clean_flashcards result
        else result
    | none =>
        if output_type = "quiz" then localQuiz text
        else if output_type = "flashcards" then localFlashcards text
        else if output_type = "bullets" then localBullets text
        else text

/-! ### The model-loading guard of `src/utils/speech_to_text.py` -/

/-- The module-level mutable state of `speech_to_text.py` (lines 10–13):
`_whisper_model`, `_model_loading`, `_model_error`, plus the lock and an
observer counter of `_load_model` invocations.  Handles and error
messages are abstracted to natural numbers. -/
structure GuardState where
  model : Option Nat
  loading : Bool
  merror : Option Nat
  lockHeld : Bool
  loadCount : Nat
deriving DecidableEq

/-- The initial (`Unloaded`) state of the process. -/
def initGuard : GuardState :=
  { model := none, loading := false, merror := none,
    lockHeld := false, loadCount := 0 }

/-- Errors raised by the guard and the transcriber. -/
inductive SttError where
  | initFailed (cause : Nat)
  | unknownInit
  | notFound (path : String)
deriving DecidableEq

/-- One execution of `_load_model` (lines 26–47) on the guard state:
increments the invocation counter, on success stores the handle, on
failure stores the error, and always clears `_model_loading`.  `outcome`
tells whether `whisper.load_model` succeeds (the dependency check and
the load itself are abstracted into it); `handle`/`cause` are the loaded
handle and the failure cause. -/
def runLoad (handle cause : Nat) (outcome : Bool) (st : GuardState) :
    GuardState :=
  if outcome then
    { st with model := some handle, loading := false,
              loadCount := st.loadCount + 1 }
  else
    { st with merror := some cause, loading := false,
              loadCount := st.loadCount + 1 }

/-- `_get_whisper_model` (lines 50–83) run by a single thread with no
interference: the fast-path error and model checks, the locked section
(the lock is free in a sequential run), and the after-lock checks. -/
def getWhisperModel (handle cause : Nat) (outcome : Bool)
    (st : GuardState) : Except SttError Nat × GuardState :=
  match st.merror with
  | some e => (.error (.initFailed e), st)
  | none =>
      match st.model with
      | some m => (.ok m, st)
      | none =>
          let st1 :=
            if st.model = none && !st.loading then
              runLoad handle cause outcome { st with loading := true }
            else st
          match st1.merror with
          | some e => (.error (.initFailed e), st1)
          | none =>
              match st1.model with
              | some m => (.ok m, st1)
              | none => (.error .unknownInit, st1)

/-- `convert_to_text` (lines 87–101): existence check on the path first,
then the guard, then the model's transcription (abstracted as the text
`transcribed` the model would produce), returning its stripped `text`
field.  The resulting guard state is returned alongside. -/
def convert_to_text (fs : List String) (handle cause : Nat)
    (outcome : Bool) (transcribed : String) (path : String)
    (st : GuardState) : Except SttError String × GuardState :=
  if !(fs.contains path) then
    (.error (.notFound ("File not found: " ++ path)), st)
  else
    match getWhisperModel handle cause outcome st with
    | (.error e, st') => (.error e, st')
    | (.ok _, st') => (.ok ⟨pyStrip transcribed.data⟩, st')

/-! #### Interleaved execution of `_get_whisper_model`

Each thread executes the statements of `_get_whisper_model` as atomic
steps at a program counter:

* 0 — fast-path check `if _model_error` (line 63);
* 1 — fast-path check `if _whisper_model is not None` (line 67);
* 2 — `with _model_lock:` acquisition (line 71), blocking while held;
* 3 — the locked test `if _whisper_model is None and not _model_loading`
  (line 72);
* 4 — `_model_loading = True; _load_model(...)` (lines 73–74, atomic
  here since the lock is held throughout);
* 5 — lock release (end of the `with` block);
* 6 — after-lock check `if _model_error` (line 77);
* 7 — after-lock check `if _whisper_model is None` (line 80);
* 100/101/102 — terminated raising; 200 — terminated returning the
  handle. -/
def threadStep (handle cause : Nat) (outcomes : List Bool)
    (st : GuardState) (pc : Nat) : GuardState × Nat :=
  if pc = 0 then
    (st, if st.merror.isSome then 100 else 1)
  else if pc = 1 then
    (st, if st.model.isSome then 200 else 2)
  else if pc = 2 then
    if st.lockHeld then (st, 2) else ({ st with lockHeld := true }, 3)
  else if pc = 3 then
    (st, if st.model = none && !st.loading then 4 else 5)
  else if pc = 4 then
    (runLoad handle cause (outcomes.getD st.loadCount true)
      { st with loading := true }, 5)
  else if pc = 5 then
    ({ st with lockHeld := false }, 6)
  else if pc = 6 then
    (st, if st.merror.isSome then 101 else 7)
  else if pc = 7 then
    (st, if st.model.isSome then 200 else 102)
  else (st, pc)

/-- A system configuration: the shared guard state and the program
counter of each thread. -/
def sysStep (handle cause : Nat) (outcomes : List Bool)
    (cfg : GuardState × List Nat) (t : Nat) : GuardState × List Nat :=
  let pc := cfg.2.getD t 300
  let r := threadStep handle cause outcomes cfg.1 pc
  (r.1, cfg.2.set t r.2)

/-- Run a schedule (a list of thread indices) from a configuration. -/
def runSched (handle cause : Nat) (outcomes : List Bool)
    (cfg : GuardState × List Nat) (sched : List Nat) :
    GuardState × List Nat :=
  sched.foldl (sysStep handle cause outcomes) cfg

/-- Two threads, both at the start of `_get_whisper_model`, in the
`Unloaded` process state. -/
def twoThreadInit : GuardState × List Nat := (initGuard, [0, 0])

/-- The racing schedule: thread 0 passes both fast-path checks, thread 1
also passes both fast-path checks, thread 0 takes the lock, loads (the
load fails), releases; thread 1 then takes the lock, finds
`_whisper_model is None and not _model_loading`, and loads again. -/
def raceSchedule : List Nat :=
  [0, 0, 1, 1, 0, 0, 0, 0, 1, 1, 1, 1, 1]

end EchoText

section SanityChecks
open EchoText

example : pyBlocks "a\n \n\nb".data = ["a".data, "b".data] := by decide
example : pyBlocks "a\n\n \nb".data = ["a".data, "b".data] := by decide
example : pyBlocks "a\n\n b".data = ["a".data, " b".data] := by decide
example : pyBlocks "a\n \n \n\nb".data = ["a".data, "b".data] := by decide
example : pyBlocks "\n\na".data = ["".data, "a".data] := by decide
example : pyBlocks "a\n\n".data = ["a".data, "".data] := by decide
example : pyBlocks "a\nb".data = ["a\nb".data] := by decide

example : searchLabel qLabel "Q:  ".data = some " ".data := by decide
example : searchLabel qLabel "Q:  \nA: y".data = some "A: y".data := by decide
example : searchLabel qLabel "Q: \nA: ".data = some "A: ".data := by decide
example : searchLabel qLabel "Q:".data = none := by decide

example :
    clean_quiz "Q: What is 2+2?\nA: 4\n\nrandom junk" = "Q: What is 2+2?\nA: 4" := by
  decide

example : clean_quiz "A: 4\nQ: \n\njunk" = "Q: \nA: 4" := by decide
example : clean_quiz "Q: \nA: 4" = "Q: A: 4\nA: 4" := by decide
example : clean_quiz "" = "" := by decide

example :
    clean_flashcards "Front: a b c d e f g\nBack: x" =
      "Front: a b c d e f g\nBack: x" := by decide

example :
    localFlashcards
        ("Explain how the whole process works in four steps. " ++
         "Noteworthy results appear in the following eight word sentence. " ++
         "Iteration counts for eight words in this here sentence. " ++
         "It is short.") =
      ("Front: Explain How The Whole\n" ++
       "Back: Explain how the whole process works in four steps.\n\n" ++
       "Front: Iteration Counts For Eight\n" ++
       "Back: Iteration counts for eight words in this here sentence.") := by
  decide

example : pyTitle "don't stop me now".data = "Don'T Stop Me Now".data := by decide
example : pyTitle "a1b c".data = "A1B C".data := by decide

example :
    localBullets "One. Two. Three. Four. Five. Six. Seven. Eight. Nine. Ten." =
      "- One.\n- Two.\n- Three.\n- Four.\n- Five.\n- Six.\n- Seven.\n- Eight." := by
  decide

example : pySentences "a.  b. ".data = ["a.".data, "b.".data, "".data] := by decide

example : generate_output "hello" "notes" (some "") = "" := by decide
example : generate_output "  " "quiz" none = "No input text provided." := by decide

example :
    (runSched 7 1 [false, false] twoThreadInit raceSchedule).1.loadCount = 2 := by
  decide

example :
    (runSched 7 1 [false, false] twoThreadInit raceSchedule).2 = [6, 101] := by
  decide

example :
    (getWhisperModel 7 1 true initGuard).1 = .ok 7 := rfl

end SanityChecks

namespace EchoText

/-! ### Helper lemmas -/

theorem mk_ne_empty {l : List Char} (h : l ≠ []) : (⟨l⟩ : String) ≠ "" := by
  intro hc
  exact h (by simpa using congrArg String.data hc)

theorem joinBlocks_cons (b : List Char) (bs : List (List Char)) :
    ∃ t, joinBlocks (b :: bs) = b ++ t := by
  cases bs with
  | nil => exact ⟨[], by simp [joinBlocks]⟩
  | cons c cs => exact ⟨_, rfl⟩

theorem clean_quiz_of_nil {output : String} (h : cleanPairsQ output = []) :
    clean_quiz output = output := by
  rw [clean_quiz, h]
  simp

theorem clean_quiz_of_cons {output : String} {p : List Char × List Char}
    {ps : List (List Char × List Char)} (h : cleanPairsQ output = p :: ps) :
    clean_quiz output = ⟨joinBlocks (qaCard p :: ps.map qaCard)⟩ := by
  rw [clean_quiz, h]
  simp

theorem clean_flashcards_of_nil {output : String}
    (h : flashPairs output = []) : clean_flashcards output = output := by
  rw [clean_flashcards, h]
  simp

theorem clean_flashcards_of_cons {output : String} {p : List Char × List Char}
    {ps : List (List Char × List Char)} (h : flashPairs output = p :: ps) :
    clean_flashcards output = ⟨joinBlocks (fbCard p :: ps.map fbCard)⟩ := by
  rw [clean_flashcards, h]
  simp

theorem isEmpty_false_of_ne {l : List Char} (h : l ≠ []) :
    l.isEmpty = false := by
  cases l with
  | nil => exact absurd rfl h
  | cons a t => rfl

theorem ne_nil_of_isEmpty_false {l : List Char} (h : l.isEmpty = false) :
    l ≠ [] := by
  cases l with
  | nil => cases h
  | cons a t => simp

theorem qaCard_ne_nil (p : List Char × List Char) : qaCard p ≠ [] := by
  simp [qaCard]

theorem fbCard_ne_nil (p : List Char × List Char) : fbCard p ≠ [] := by
  simp [fbCard]

theorem joinBlocks_head_ne_nil {b : List Char} (bs : List (List Char))
    (h : b ≠ []) : joinBlocks (b :: bs) ≠ [] := by
  obtain ⟨t, ht⟩ := joinBlocks_cons b bs
  rw [ht]
  simp [h]

/-! ### C2 — the concurrency guarantee of `_get_whisper_model`

The docstring of `_get_whisper_model` (lines 56–57: "Never loads
twice") and the spec (P1, "initialization runs at most once per
process") are violated by the code when the first load fails: a thread
that passed the fast-path checks before the failure was recorded then
acquires the lock, finds `_whisper_model is None and not
_model_loading`, and invokes `_load_model` a second time. -/

/-- C2: starting from the `Unloaded` state with two threads at the top
of `_get_whisper_model` and a loader whose invocations fail, the
interleaving `raceSchedule` drives the model of the code through two
executions of `_load_model` (`loadCount = 2`), contradicting the
claimed exactly-once guarantee.  The first racing thread terminates
after its after-lock error check (pc 6) and the second terminates
raising the initialization error (pc 101). -/
theorem c2_guard_double_load_eval :
    twoThreadInit.1 = initGuard ∧
      (runSched 7 1 [false, false] twoThreadInit raceSchedule).1.loadCount = 2 ∧
      (runSched 7 1 [false, false] twoThreadInit raceSchedule).2 = [6, 101] := by
  refine ⟨rfl, by decide, by decide⟩

/-! ### C3 — permanent failure of the guard -/

/-- C3: once the guard's stored error is set, every call to
`_get_whisper_model` raises an initialization error carrying the same
original cause, does not re-invoke the loader, and leaves the whole
guard state (model handle, error, loading flag, load counter)
unchanged. -/
theorem c3_failed_guard_raises_same_cause (handle cause : Nat)
    (outcome : Bool) (st : GuardState) (e : Nat)
    (h : st.merror = some e) :
    getWhisperModel handle cause outcome st = (.error (.initFailed e), st) := by
  rw [getWhisperModel, h]

theorem c3_failed_guard_witness :
    getWhisperModel 7 1 true
        { model := none, loading := false, merror := some 5,
          lockHeld := false, loadCount := 1 } =
      (.error (.initFailed 5),
        { model := none, loading := false, merror := some 5,
          lockHeld := false, loadCount := 1 }) :=
  c3_failed_guard_raises_same_cause 7 1 true _ 5 rfl

/-! ### C9 — missing input file -/

/-- C9: for a path absent from the file system, `convert_to_text` fails
with the file-not-found error before any interaction with the guard:
the returned guard state is exactly the input state. -/
theorem c9_missing_file_guard_untouched (fs : List String)
    (handle cause : Nat) (outcome : Bool) (transcribed path : String)
    (st : GuardState) (h : fs.contains path = false) :
    convert_to_text fs handle cause outcome transcribed path st =
      (.error (.notFound ("File not found: " ++ path)), st) := by
  rw [convert_to_text, h]
  rfl

theorem c9_missing_file_witness :
    convert_to_text ["/tmp/a.mp3"] 7 1 true "hello" "/nonexistent.mp3"
        initGuard =
      (.error (.notFound "File not found: /nonexistent.mp3"), initGuard) :=
  c9_missing_file_guard_untouched ["/tmp/a.mp3"] 7 1 true "hello"
    "/nonexistent.mp3" initGuard (by decide)

/-! ### C5 — flashcard fronts longer than six words -/

/-- C5 counterexample: when no block survives, `clean_flashcards`
returns the raw text unchanged, so a block whose `Front:` field has
seven words is still present in the output — the claim that such blocks
are always excluded from the output fails. -/
theorem c5_long_front_in_output_counterexample :
    clean_flashcards "Front: a b c d e f g\nBack: x" =
        "Front: a b c d e f g\nBack: x" ∧
      (pyWords (pyStrip
        ((searchLabel frontLabel
          (pyStrip ("Front: a b c d e f g\nBack: x" : String).data)).getD []))).length
        = 7 := by
  constructor
  · decide
  · decide

/-- C5 (amended): a block whose `Front:` field has more than six words
never contributes a kept card: every pair kept by the flashcards
cleaner has a front of at most six words.  (When at least one block
survives, the output is assembled from kept cards only; when none
survives, the raw text — long fronts included — is returned.) -/
theorem c5_kept_fronts_short_amended (raw : String)
    (p : List Char × List Char) (hp : p ∈ flashPairs raw) :
    (pyWords p.1).length ≤ 6 := by
  rcases List.mem_filterMap.mp hp with ⟨b, -, hb⟩
  unfold parseFlashBlock at hb
  split at hb
  · rename_i o1 o2 f bk hf hk
    split_ifs at hb with h1 h2
    rw [← Option.some.inj hb]
    exact Nat.le_of_not_lt h1
  · cases hb

theorem c5_kept_fronts_short_witness :
    (pyWords ("Topic".data : List Char)).length ≤ 6 := by
  have hp : (("Topic".data, "stuff".data) : List Char × List Char) ∈
      flashPairs "Front: Topic\nBack: stuff" := by decide
  simpa using
    c5_kept_fronts_short_amended "Front: Topic\nBack: stuff" _ hp

/-! ### C7 — quiz cleaning when no block validates -/

/-- C7 counterexample: for the empty input no block validates and
`clean_quiz` returns the original text — which is the empty string, so
"never returns an empty string" fails as stated. -/
theorem c7_empty_input_counterexample :
    cleanPairsQ "" = [] ∧ clean_quiz "" = "" := by
  constructor
  · decide
  · decide

/-- C7 (amended): when zero blocks validate, `clean_quiz` returns the
original raw text unchanged (and hence never fails); the result is
non-empty whenever the raw input is non-empty — for the empty input the
returned original is itself empty. -/
theorem c7_no_valid_blocks_amended (raw : String)
    (h : cleanPairsQ raw = []) :
    clean_quiz raw = raw ∧ (raw ≠ "" → clean_quiz raw ≠ "") := by
  have h1 := clean_quiz_of_nil h
  refine ⟨h1, fun hne hc => hne ?_⟩
  rw [← h1]
  exact hc

theorem c7_no_valid_blocks_witness :
    clean_quiz "junk" = "junk" ∧ clean_quiz "junk" ≠ "" := by
  have h := c7_no_valid_blocks_amended "junk" (by decide)
  exact ⟨h.1, h.2 (by decide)⟩

/-! ### C10 — the local flashcards fallback -/

theorem flashLoop_eq (l : List (List Char)) :
    ∀ r : Nat, 1 ≤ r →
      flashLoop r l = ((l.filter localKeep).take r).map localCard := by
  induction l with
  | nil => intro r hr; simp [flashLoop]
  | cons s rest ih =>
      intro r hr
      obtain ⟨n, rfl⟩ : ∃ n, r = n + 1 := ⟨r - 1, by omega⟩
      by_cases hk : localKeep s
      · rw [flashLoop, if_pos hk, List.filter_cons_of_pos hk,
          List.take_succ_cons, List.map_cons]
        cases n with
        | zero => simp
        | succ m =>
            rw [if_neg (by omega), Nat.add_sub_cancel, ih (m + 1) (by omega)]
      · rw [flashLoop, if_neg hk, List.filter_cons_of_neg hk]
        exact ih (n + 1) hr

/-- C10: `_local_flashcards` keeps exactly the sentences with at least
eight words whose lowercased text does not start with one of the raw
string literals `"it "`, `"this "`, `"however"`, `"note"` (that is what
`localKeep` states), takes the first eight of them, and renders each as
a card whose front is the first four words title-cased and whose back
is the (stripped) full sentence (that is what `localCard` states).  In
particular a sentence starting with `Explain` is kept, a sentence whose
first word `Noteworthy` merely begins with `note` is skipped, and a
sentence starting with `Iteration` is kept because the `"it "` literal
carries a trailing space. -/
theorem c10_local_flashcards_characterization :
    (∀ text : String,
        localFlashCards text =
          (((pySentences text.data).filter localKeep).take 8).map localCard) ∧
      localKeep "Explain how the whole process works in four steps.".data
        = true ∧
      localKeep
        "Noteworthy results appear in the following eight word sentence.".data
        = false ∧
      localKeep "Iteration counts for eight words in this here sentence.".data
        = true := by
  refine ⟨fun text => flashLoop_eq (pySentences text.data) 8 (by omega),
    by decide, by decide, by decide⟩

/-! ### C8 — the bullets fallback -/

/-- C8: whenever the remote call fails and the input is not
whitespace-only, `generate_output` with kind `bullets` returns exactly
the first eight sentences of the stripped input, each rendered on its
own line with the prefix `"- "` and no word-count filter; on the
ten-sentence Scenario B input the result is exactly the first eight
sentences so rendered. -/
theorem c8_bullets_fallback :
    (∀ text : String, (pyStrip text.data).isEmpty = false →
        generate_output text "bullets" none =
          ⟨joinLines (((pySentences (pyStrip text.data)).take 8).map
            (fun s => '-' :: ' ' :: s))⟩) ∧
      generate_output "One. Two. Three. Four. Five. Six. Seven. Eight. Nine. Ten."
          "bullets" none =
        "- One.\n- Two.\n- Three.\n- Four.\n- Five.\n- Six.\n- Seven.\n- Eight." := by
  constructor
  · intro text ht
    unfold generate_output
    rw [ht]
    simp only [Bool.false_eq_true, if_false]
    rw [if_neg (by decide : ¬("bullets" : String) = "quiz"),
      if_neg (by decide : ¬("bullets" : String) = "flashcards")]
    simp only [if_true]
    rfl
  · decide

theorem c8_bullets_fallback_witness :
    generate_output "Hi there. Second one here. Ok." "bullets" none =
      ⟨joinLines (((pySentences
        (pyStrip ("Hi there. Second one here. Ok." : String).data)).take 8).map
          (fun s => '-' :: ' ' :: s))⟩ :=
  c8_bullets_fallback.1 "Hi there. Second one here. Ok." (by decide)

/-! ### C1 — the generation pipeline never returns empty output -/

/-- C1 counterexample: a successful remote call whose
`choices[0].message.content` is the empty (or whitespace-only) string
makes `generate_output` return the empty string for kind `notes`, so
the unconditional "never returns an empty string" fails. -/
theorem c1_empty_success_counterexample :
    generate_output "hello" "notes" (some "") = "" := by
  decide

theorem clean_quiz_ne_empty (output : String) (h : output ≠ "") :
    clean_quiz output ≠ "" := by
  cases hp : cleanPairsQ output with
  | nil => rw [clean_quiz_of_nil hp]; exact h
  | cons p ps =>
      rw [clean_quiz_of_cons hp]
      exact mk_ne_empty (joinBlocks_head_ne_nil _ (qaCard_ne_nil p))

theorem clean_flashcards_ne_empty (output : String) (h : output ≠ "") :
    clean_flashcards output ≠ "" := by
  cases hp : flashPairs output with
  | nil => rw [clean_flashcards_of_nil hp]; exact h
  | cons p ps =>
      rw [clean_flashcards_of_cons hp]
      exact mk_ne_empty (joinBlocks_head_ne_nil _ (fbCard_ne_nil p))

theorem localQuiz_ne_empty (text : String) : localQuiz text ≠ "" := by
  rw [localQuiz, localQuizBlocks]
  cases ha : localQuizAnswers text with
  | nil => simp only [ha, List.map_nil, List.isEmpty_nil, if_pos]; decide
  | cons s ss =>
      simp only [ha, List.map_cons, List.isEmpty_cons, Bool.false_eq_true,
        if_false]
      exact mk_ne_empty (joinBlocks_head_ne_nil _ (by simp))

theorem localFlashcards_ne_empty (text : String) :
    localFlashcards text ≠ "" := by
  rw [localFlashcards]
  have he : localFlashCards text =
      (((pySentences text.data).filter localKeep).take 8).map localCard :=
    flashLoop_eq (pySentences text.data) 8 (by omega)
  rw [he]
  cases hl : ((pySentences text.data).filter localKeep).take 8 with
  | nil => simp only [hl, List.map_nil, List.isEmpty_nil, if_pos]; decide
  | cons s ss =>
      simp only [hl, List.map_cons, List.isEmpty_cons, Bool.false_eq_true,
        if_false]
      exact mk_ne_empty (joinBlocks_head_ne_nil _ (by simp [localCard]))

theorem sentAux_ne_nil :
    ∀ (l : List Char) (mode : Nat) (prev : Char) (acc : List Char),
      sentAux mode prev acc l ≠ [] := by
  intro l
  induction l with
  | nil =>
      intro mode prev acc
      rw [sentAux]
      split_ifs <;> simp
  | cons c rest ih =>
      intro mode prev acc
      rw [sentAux]
      split_ifs <;> first | exact ih _ _ _ | simp

theorem joinLines_cons (b : List Char) (bs : List (List Char)) :
    ∃ t, joinLines (b :: bs) = b ++ t := by
  cases bs with
  | nil => exact ⟨[], by simp [joinLines]⟩
  | cons c cs => exact ⟨_, rfl⟩

theorem localBullets_ne_empty (text : String) : localBullets text ≠ "" := by
  rw [localBullets]
  apply mk_ne_empty
  cases hs : pySentences (pyStrip text.data) with
  | nil => exact absurd hs (sentAux_ne_nil _ 0 'x' [])
  | cons s ss =>
      have htake : (s :: ss).take 8 = s :: ss.take 7 := rfl
      rw [htake, List.map_cons]
      obtain ⟨t, ht⟩ := joinLines_cons ('-' :: ' ' :: s)
        ((ss.take 7).map (fun x => '-' :: ' ' :: x))
      rw [ht]
      simp

/-- C1 (amended): for a non-whitespace input, `generate_output` is
total and returns a non-empty string for every output kind and every
remote outcome in which the remote call either fails (any network
error, timeout, non-2xx status or malformed body) or succeeds with
content that does not strip to the empty string.  (If the remote call
succeeds with whitespace-only content the function can return the empty
string, as the counterexample shows.) -/
theorem c1_generate_nonempty_amended (text output_type : String)
    (remote : Option String)
    (ht : (pyStrip text.data).isEmpty = false)
    (hr : ∀ c : String, remote = some c → (pyStrip c.data).isEmpty = false) :
    generate_output text output_type remote ≠ "" := by
  unfold generate_output
  rw [ht]
  simp only [Bool.false_eq_true, if_false]
  cases remote with
  | some c =>
      have hc : (⟨pyStrip c.data⟩ : String) ≠ "" :=
        mk_ne_empty (ne_nil_of_isEmpty_false (hr c rfl))
      show (if output_type = "quiz" then clean_quiz ⟨pyStrip c.data⟩
        else if output_type = "flashcards" then clean_flashcards ⟨pyStrip c.data⟩
        else (⟨pyStrip c.data⟩ : String)) ≠ ""
      split_ifs
      · exact clean_quiz_ne_empty _ hc
      · exact clean_flashcards_ne_empty _ hc
      · exact hc
  | none =>
      show (if output_type = "quiz" then localQuiz text
        else if output_type = "flashcards" then localFlashcards text
        else if output_type = "bullets" then localBullets text
        else text) ≠ ""
      split_ifs
      · exact localQuiz_ne_empty text
      · exact localFlashcards_ne_empty text
      · exact localBullets_ne_empty text
      · intro h0
        rw [h0] at ht
        exact absurd ht (by decide)

theorem c1_generate_nonempty_witness :
    generate_output "hi" "bullets" none ≠ "" :=
  c1_generate_nonempty_amended "hi" "bullets" none (by decide)
    (fun c h => nomatch h)

/-! ### C6 — which quiz blocks are kept -/

/-- C6 counterexample: in the input `"A: 4\nQ: \n\njunk"` neither block
has both a non-empty `Q:` field and a non-empty `A:` field (the `Q:`
field of the first block strips to the empty string), yet `clean_quiz`
keeps the first block and renders it — so "keeps exactly those blocks
that contain both a non-empty `Q:` field and a non-empty `A:` field"
fails on the code. -/
theorem c6_whitespace_field_kept_counterexample :
    clean_quiz "A: 4\nQ: \n\njunk" = "Q: \nA: 4" ∧
      (∀ b ∈ pyBlocks (pyStrip ("A: 4\nQ: \n\njunk" : String).data),
        specQuizValid b = false) := by
  constructor
  · decide
  · decide

/-- C6 (amended): `clean_quiz` keeps exactly those blocks on which both
regex searches `Q:\s*(.+)` and `A:\s*(.+)` succeed — i.e. at least one
character follows the label and the optional whitespace, which may
itself be whitespace or come from a following line — and renders each
kept block as the two lines `Q: ...` / `A: ...` with the stripped
captured values; on the Scenario A input it returns exactly
`"Q: What is 2+2?\nA: 4"`. -/
theorem c6_quiz_keep_amended :
    clean_quiz "Q: What is 2+2?\nA: 4\n\nrandom junk" =
        "Q: What is 2+2?\nA: 4" ∧
      ∀ b : List Char, (parseQuizBlock b).isSome =
        ((searchLabel qLabel b).isSome && (searchLabel aLabel b).isSome) := by
  refine ⟨by decide, fun b => ?_⟩
  cases hq : searchLabel qLabel b <;> cases ha : searchLabel aLabel b <;>
    simp [parseQuizBlock, hq, ha]

/-! ### C4 — idempotence of quiz cleaning

Helper lemmas about `pyStrip`, the captured groups, the block splitter
on rendered cards, and re-parsing a rendered card. -/

theorem dropWhile_head?_false {p : Char → Bool} :
    ∀ {l : List Char} {c : Char}, (l.dropWhile p).head? = some c →
      p c = false := by
  intro l
  induction l with
  | nil => intro c h; cases h
  | cons a t ih =>
      intro c h
      by_cases hp : p a
      · exact ih (by rwa [List.dropWhile_cons_of_pos hp] at h)
      · rw [List.dropWhile_cons_of_neg hp] at h
        have ha : a = c := by simpa using h
        rw [← ha]
        simpa using hp

theorem dropWhile_sfx (p : Char → Bool) (l : List Char) :
    ∃ t, l = t ++ l.dropWhile p := by
  induction l with
  | nil => exact ⟨[], rfl⟩
  | cons a t ih =>
      by_cases hp : p a
      · obtain ⟨u, hu⟩ := ih
        refine ⟨a :: u, ?_⟩
        rw [List.dropWhile_cons_of_pos hp, List.cons_append, ← hu]
      · exact ⟨[], by rw [List.dropWhile_cons_of_neg hp]; rfl⟩

theorem pyStrip_revHead {l : List Char} {c : Char}
    (h : (pyStrip l).reverse.head? = some c) : isPySpace c = false := by
  rw [pyStrip, List.reverse_reverse] at h
  exact dropWhile_head?_false h

theorem pyStrip_head {l : List Char} {c : Char}
    (h : (pyStrip l).head? = some c) : isPySpace c = false := by
  obtain ⟨t, ht⟩ := dropWhile_sfx isPySpace (l.dropWhile isPySpace).reverse
  rw [pyStrip] at h
  cases hXr : ((l.dropWhile isPySpace).reverse.dropWhile isPySpace).reverse with
  | nil => rw [hXr] at h; cases h
  | cons c0 u =>
      rw [hXr] at h
      have hc0 : c0 = c := by simpa using h
      subst hc0
      have hd2 : l.dropWhile isPySpace =
          ((l.dropWhile isPySpace).reverse.dropWhile isPySpace).reverse
            ++ t.reverse := by
        have h2 := congrArg List.reverse ht
        simpa [List.reverse_append] using h2
      rw [hXr] at hd2
      have h3 : (l.dropWhile isPySpace).head? = some c0 := by
        rw [hd2]; rfl
      exact dropWhile_head?_false h3

theorem pyStrip_fix {l : List Char}
    (h1 : ∀ c, l.head? = some c → isPySpace c = false)
    (h2 : ∀ c, l.reverse.head? = some c → isPySpace c = false) :
    pyStrip l = l := by
  have hd : l.dropWhile isPySpace = l := by
    cases l with
    | nil => rfl
    | cons a t =>
        rw [List.dropWhile_cons_of_neg]
        simp [h1 a rfl]
  rw [pyStrip, hd]
  have hr : l.reverse.dropWhile isPySpace = l.reverse := by
    cases hlr : l.reverse with
    | nil => rfl
    | cons a t =>
        rw [List.dropWhile_cons_of_neg]
        have := h2 a (by rw [hlr]; rfl)
        simp [this]
  rw [hr, List.reverse_reverse]

theorem pyStrip_idem (l : List Char) : pyStrip (pyStrip l) = pyStrip l :=
  pyStrip_fix (fun _ hc => pyStrip_head hc) (fun _ hc => pyStrip_revHead hc)

theorem mem_of_mem_dropWhile {p : Char → Bool} {x : Char} {l : List Char}
    (h : x ∈ l.dropWhile p) : x ∈ l := by
  obtain ⟨t, ht⟩ := dropWhile_sfx p l
  rw [ht]
  exact List.mem_append_right t h

theorem mem_of_mem_pyStrip {x : Char} {l : List Char} (h : x ∈ pyStrip l) :
    x ∈ l := by
  rw [pyStrip, List.mem_reverse] at h
  have h2 := mem_of_mem_dropWhile h
  rw [List.mem_reverse] at h2
  exact mem_of_mem_dropWhile h2

theorem matchTail_no_nl {rest g : List Char} (h : matchTail rest = some g) :
    '\n' ∉ g := by
  unfold matchTail at h
  split at h
  · have hg := Option.some.inj h
    rw [← hg]
    intro hmem
    have := List.mem_takeWhile_imp hmem
    simp at this
  · split at h
    · rename_i c u heq
      have hg := Option.some.inj h
      rw [← hg]
      intro hmem
      have hc : '\n' = c := by simpa using hmem
      have hhead : (((rest.takeWhile isPySpace).reverse).dropWhile
          (fun x => x = '\n')).head? = some c := by
        rw [heq]; rfl
      have := dropWhile_head?_false hhead
      rw [← hc] at this
      simp at this
    · cases h

theorem searchLabel_no_nl {L : List Char} :
    ∀ {b g : List Char}, searchLabel L b = some g → '\n' ∉ g := by
  intro b
  induction b with
  | nil => intro g h; cases h
  | cons c rest ih =>
      intro g h
      unfold searchLabel at h
      split_ifs at h with htake
      · split at h
        · rename_i g' heq
          have := Option.some.inj h
          rw [← this]
          exact matchTail_no_nl heq
        · exact ih h
      · exact ih h

theorem cleanPairsQ_shape {s : String} {q : List Char × List Char}
    (hq : q ∈ cleanPairsQ s) :
    pyStrip q.1 = q.1 ∧ pyStrip q.2 = q.2 ∧ '\n' ∉ q.1 ∧ '\n' ∉ q.2 := by
  rcases List.mem_filterMap.mp hq with ⟨b, -, hb⟩
  unfold parseQuizBlock at hb
  split at hb
  · rename_i o1 o2 g1 g2 hg1 hg2
    have hqe := Option.some.inj hb
    rw [← hqe]
    refine ⟨pyStrip_idem g1, pyStrip_idem g2, ?_, ?_⟩
    · intro hm; exact searchLabel_no_nl hg1 (mem_of_mem_pyStrip hm)
    · intro hm; exact searchLabel_no_nl hg2 (mem_of_mem_pyStrip hm)
  · cases hb

theorem searchLabel_cons (L : List Char) (c : Char) (rest : List Char) :
    searchLabel L (c :: rest) =
      if (c :: rest).take L.length = L then
        match matchTail ((c :: rest).drop L.length) with
        | some g => some g
        | none => searchLabel L rest
      else searchLabel L rest := rfl

theorem tailsOK_cons (L v : List Char) (c : Char) (u : List Char) :
    tailsOK L v (c :: u) =
      (!(decide ((c :: (u ++ v)).take L.length = L)) && tailsOK L v u) := rfl

theorem hasLabel_cons (L : List Char) (c : Char) (rest : List Char) :
    hasLabel L (c :: rest) =
      (decide ((c :: rest).take L.length = L) || hasLabel L rest) := rfl

theorem searchLabel_skip (L v : List Char) :
    ∀ u, tailsOK L v u = true → searchLabel L (u ++ v) = searchLabel L v := by
  intro u
  induction u with
  | nil => intro h; rfl
  | cons c u' ih =>
      intro h
      rw [tailsOK_cons, Bool.and_eq_true] at h
      obtain ⟨h1, h2⟩ := h
      have hP : ¬ ((c :: (u' ++ v)).take L.length = L) := by
        simpa using h1
      rw [List.cons_append, searchLabel_cons, if_neg hP]
      exact ih h2

theorem take_two_ne_label {c : Char} (l : List Char) (hc : ¬ c = 'A') :
    ¬ ((c :: l).take aLabel.length = aLabel) := by
  intro h
  have ht : (c :: l).take aLabel.length = c :: l.take 1 := rfl
  rw [ht] at h
  injection h with h1 h2
  exact hc h1

theorem take_two_second_ne {c d : Char} (l : List Char) (hd : ¬ d = ':') :
    ¬ ((c :: d :: l).take aLabel.length = aLabel) := by
  intro h
  have ht : (c :: d :: l).take aLabel.length = [c, d] := rfl
  rw [ht] at h
  injection h with h1 h2
  injection h2 with h3 h4
  exact hd h3

theorem tailsOK_through_x (y : List Char) :
    ∀ x, hasLabel aLabel x = false →
      tailsOK aLabel ('A' :: ':' :: ' ' :: y) (x ++ ['\n']) = true := by
  intro x
  induction x with
  | nil =>
      intro h
      rw [List.nil_append, tailsOK_cons, Bool.and_eq_true]
      refine ⟨?_, rfl⟩
      simp only [List.nil_append]
      have := take_two_ne_label (l := 'A' :: ':' :: ' ' :: y)
        (c := '\n') (by decide)
      simpa using this
  | cons c x' ih =>
      intro h
      rw [hasLabel_cons, Bool.or_eq_false_iff] at h
      obtain ⟨h1, h2⟩ := h
      rw [List.cons_append, tailsOK_cons, Bool.and_eq_true]
      refine ⟨?_, ih h2⟩
      cases x' with
      | nil =>
          simp only [List.nil_append, List.singleton_append]
          have := take_two_second_ne (c := c) (d := '\n')
            ('A' :: ':' :: ' ' :: y) (by decide)
          simpa using this
      | cons c2 x'' =>
          have hne : ¬((c :: c2 :: x'').take aLabel.length = aLabel) := by
            simpa using h1
          have ht1 : (c :: c2 :: x'').take aLabel.length = [c, c2] := rfl
          rw [ht1] at hne
          rw [show ((c :: (((c2 :: x'') ++ ['\n']) ++
              ('A' :: ':' :: ' ' :: y))).take aLabel.length) = [c, c2] from rfl]
          simpa using hne

theorem tailsOK_qa (x y : List Char) (hA : hasLabel aLabel x = false) :
    tailsOK aLabel ('A' :: ':' :: ' ' :: y)
      ('Q' :: ':' :: ' ' :: (x ++ ['\n'])) = true := by
  rw [tailsOK_cons, tailsOK_cons, tailsOK_cons, Bool.and_eq_true,
    Bool.and_eq_true, Bool.and_eq_true]
  refine ⟨?_, ?_, ?_, tailsOK_through_x y x hA⟩
  · have := take_two_ne_label
      (l := (':' :: ' ' :: (x ++ ['\n'])) ++ ('A' :: ':' :: ' ' :: y))
      (c := 'Q') (by decide)
    simpa using this
  · have := take_two_ne_label
      (l := (' ' :: (x ++ ['\n'])) ++ ('A' :: ':' :: ' ' :: y))
      (c := ':') (by decide)
    simpa using this
  · have := take_two_ne_label
      (l := (x ++ ['\n']) ++ ('A' :: ':' :: ' ' :: y))
      (c := ' ') (by decide)
    simpa using this

theorem matchTail_space (c0 : Char) (t : List Char)
    (hc : isPySpace c0 = false) :
    matchTail (' ' :: c0 :: t) =
      some ((c0 :: t).takeWhile (fun x => !(x = '\n'))) := by
  have h1 : isPySpace ' ' = true := rfl
  have hw : (' ' :: c0 :: t).takeWhile isPySpace = [' '] := by
    rw [List.takeWhile_cons_of_pos h1, List.takeWhile_cons_of_neg (by simp [hc])]
  have hdrop : (' ' :: c0 :: t).drop
      ((' ' :: c0 :: t).takeWhile isPySpace).length = c0 :: t := by
    rw [hw]
    rfl
  unfold matchTail
  rw [hdrop]

theorem takeWhile_nnl_append {x : List Char} (rest : List Char)
    (hx : '\n' ∉ x) :
    (x ++ '\n' :: rest).takeWhile (fun c => !(c = '\n')) = x := by
  induction x with
  | nil => simp
  | cons a t ih =>
      have ha : ¬ a = '\n' := by
        intro hh
        exact hx (by rw [hh]; exact List.mem_cons_self _ _)
      have ht : '\n' ∉ t := fun hh => hx (List.mem_cons_of_mem a hh)
      rw [List.cons_append, List.takeWhile_cons_of_pos (by simpa using ha), ih ht]

theorem takeWhile_nnl_self {y : List Char} (hy : '\n' ∉ y) :
    y.takeWhile (fun c => !(c = '\n')) = y := by
  induction y with
  | nil => rfl
  | cons a t ih =>
      have ha : ¬ a = '\n' := by
        intro hh
        exact hy (by rw [hh]; exact List.mem_cons_self _ _)
      have ht : '\n' ∉ t := fun hh => hy (List.mem_cons_of_mem a hh)
      rw [List.takeWhile_cons_of_pos (by simpa using ha), ih ht]

theorem searchLabel_q_card (x y : List Char) (hx0 : x ≠ [])
    (hxh : ∀ c, x.head? = some c → isPySpace c = false) (hxn : '\n' ∉ x) :
    searchLabel qLabel (qaCard (x, y)) = some x := by
  obtain ⟨c0, t, rfl⟩ : ∃ c0 t, x = c0 :: t := by
    cases x with
    | nil => exact absurd rfl hx0
    | cons a b => exact ⟨a, b, rfl⟩
  show searchLabel qLabel
    ('Q' :: ':' :: ' ' :: ((c0 :: t) ++ '\n' :: 'A' :: ':' :: ' ' :: y)) =
      some (c0 :: t)
  rw [searchLabel_cons,
    if_pos (show ('Q' :: (':' :: ' ' ::
      ((c0 :: t) ++ '\n' :: 'A' :: ':' :: ' ' :: y))).take qLabel.length =
        qLabel from rfl)]
  rw [show ('Q' :: (':' :: ' ' ::
      ((c0 :: t) ++ '\n' :: 'A' :: ':' :: ' ' :: y))).drop qLabel.length =
    ' ' :: c0 :: (t ++ '\n' :: 'A' :: ':' :: ' ' :: y) from rfl]
  rw [matchTail_space c0 _ (hxh c0 rfl)]
  rw [show (c0 :: (t ++ '\n' :: 'A' :: ':' :: ' ' :: y)) =
    ((c0 :: t) ++ '\n' :: ('A' :: ':' :: ' ' :: y)) from rfl]
  rw [takeWhile_nnl_append _ hxn]

theorem searchLabel_a_card (x y : List Char) (hy0 : y ≠ [])
    (hyh : ∀ c, y.head? = some c → isPySpace c = false) (hyn : '\n' ∉ y)
    (hA : hasLabel aLabel x = false) :
    searchLabel aLabel (qaCard (x, y)) = some y := by
  obtain ⟨c0, t, rfl⟩ : ∃ c0 t, y = c0 :: t := by
    cases y with
    | nil => exact absurd rfl hy0
    | cons a b => exact ⟨a, b, rfl⟩
  have hsplit : qaCard (x, c0 :: t) =
      ('Q' :: ':' :: ' ' :: (x ++ ['\n'])) ++ ('A' :: ':' :: ' ' :: (c0 :: t)) := by
    simp [qaCard, List.append_assoc]
  rw [hsplit, searchLabel_skip _ _ _ (tailsOK_qa x (c0 :: t) hA)]
  rw [searchLabel_cons,
    if_pos (show ('A' :: (':' :: ' ' :: (c0 :: t))).take aLabel.length =
      aLabel from rfl)]
  rw [show ('A' :: (':' :: ' ' :: (c0 :: t))).drop aLabel.length =
    ' ' :: c0 :: t from rfl]
  rw [matchTail_space c0 t (hyh c0 rfl)]
  rw [takeWhile_nnl_self hyn]

theorem parseQuizBlock_card (x y : List Char)
    (hx0 : x ≠ []) (hy0 : y ≠ [])
    (hxh : ∀ c, x.head? = some c → isPySpace c = false)
    (hyh : ∀ c, y.head? = some c → isPySpace c = false)
    (hxn : '\n' ∉ x) (hyn : '\n' ∉ y)
    (hxs : pyStrip x = x) (hys : pyStrip y = y)
    (hA : hasLabel aLabel x = false) :
    parseQuizBlock (qaCard (x, y)) = some (x, y) := by
  unfold parseQuizBlock
  rw [searchLabel_q_card x y hx0 hxh hxn,
    searchLabel_a_card x y hy0 hyh hyn hA]
  show some (pyStrip x, pyStrip y) = some (x, y)
  rw [hxs, hys]

theorem blkAux0_cons_ne (c : Char) (hc : ¬ c = '\n') (acc rest : List Char) :
    blkAux 0 acc [] (c :: rest) = blkAux 0 (c :: acc) [] rest := by
  simp [blkAux, hc]

theorem blkAux0_cons_nl (acc rest : List Char) :
    blkAux 0 acc [] ('\n' :: rest) = blkAux 1 acc [] rest := by
  simp [blkAux]

theorem blkAux1_cons_nl (acc buf rest : List Char) :
    blkAux 1 acc buf ('\n' :: rest) = acc.reverse :: blkAux 2 [] [] rest := by
  simp [blkAux]

theorem blkAux1_cons_other (c : Char) (hc1 : ¬ c = '\n')
    (hc2 : isPySpace c = false) (acc buf rest : List Char) :
    blkAux 1 acc buf (c :: rest) =
      blkAux 0 (c :: (buf ++ '\n' :: acc)) [] rest := by
  simp [blkAux, hc1, hc2]

theorem blkAux2_start (c : Char) (hc1 : ¬ c = '\n')
    (hc2 : isPySpace c = false) (t : List Char) :
    blkAux 2 [] [] (c :: t) = blkAux 0 [] [] (c :: t) := by
  simp [blkAux, hc1, hc2]

theorem blkAux0_nil (acc : List Char) : blkAux 0 acc [] [] = [acc.reverse] := by
  simp [blkAux]

theorem blk_scan {u : List Char} (hu : '\n' ∉ u) :
    ∀ acc rest, blkAux 0 acc [] (u ++ rest) =
      blkAux 0 (u.reverse ++ acc) [] rest := by
  induction u with
  | nil => intro acc rest; simp
  | cons c t ih =>
      intro acc rest
      have hc : ¬ c = '\n' := by
        intro hh
        exact hu (by rw [hh]; exact List.mem_cons_self _ _)
      have ht : '\n' ∉ t := fun hh => hu (List.mem_cons_of_mem _ hh)
      rw [List.cons_append, blkAux0_cons_ne c hc, ih ht]
      simp [List.append_assoc]

theorem blk_card_scan (x y : List Char) (hxn : '\n' ∉ x) (hyn : '\n' ∉ y)
    (acc rest : List Char) :
    blkAux 0 acc [] (qaCard (x, y) ++ rest) =
      blkAux 0 ((qaCard (x, y)).reverse ++ acc) [] rest := by
  have e1 : qaCard (x, y) ++ rest =
      'Q' :: ':' :: ' ' :: (x ++ ('\n' :: 'A' :: ':' :: ' ' :: (y ++ rest))) := by
    simp [qaCard]
  rw [e1]
  rw [blkAux0_cons_ne 'Q' (by decide), blkAux0_cons_ne ':' (by decide),
    blkAux0_cons_ne ' ' (by decide)]
  rw [blk_scan hxn]
  rw [blkAux0_cons_nl]
  rw [blkAux1_cons_other 'A' (by decide) (by decide)]
  rw [blkAux0_cons_ne ':' (by decide), blkAux0_cons_ne ' ' (by decide)]
  rw [blk_scan hyn]
  congr 1
  simp [qaCard, List.reverse_append, List.append_assoc]

theorem pyBlocks_join :
    ∀ (ps : List (List Char × List Char)) (x y : List Char),
      '\n' ∉ x → '\n' ∉ y →
      (∀ q ∈ ps, '\n' ∉ q.1 ∧ '\n' ∉ q.2) →
      pyBlocks (joinBlocks (qaCard (x, y) :: ps.map qaCard)) =
        qaCard (x, y) :: ps.map qaCard := by
  intro ps
  induction ps with
  | nil =>
      intro x y hx hy hps
      show blkAux 0 [] [] (joinBlocks [qaCard (x, y)]) = [qaCard (x, y)]
      rw [show joinBlocks [qaCard (x, y)] = qaCard (x, y) from rfl]
      conv_lhs => rw [← List.append_nil (qaCard (x, y))]
      rw [blk_card_scan x y hx hy]
      rw [blkAux0_nil]
      simp
  | cons q qs ih =>
      intro x y hx hy hps
      obtain ⟨hq1, hq2⟩ := hps q (List.mem_cons_self _ _)
      have hqs : ∀ r ∈ qs, '\n' ∉ r.1 ∧ '\n' ∉ r.2 :=
        fun r hr => hps r (List.mem_cons_of_mem _ hr)
      show blkAux 0 [] []
        (joinBlocks (qaCard (x, y) :: qaCard q :: qs.map qaCard)) =
          qaCard (x, y) :: (q :: qs).map qaCard
      rw [show joinBlocks (qaCard (x, y) :: qaCard q :: qs.map qaCard) =
        qaCard (x, y) ++
          ('\n' :: '\n' :: joinBlocks (qaCard q :: qs.map qaCard)) from rfl]
      rw [blk_card_scan x y hx hy]
      rw [blkAux0_cons_nl, blkAux1_cons_nl]
      obtain ⟨tj, htj⟩ := joinBlocks_cons (qaCard q) (qs.map qaCard)
      have hJ : joinBlocks (qaCard q :: qs.map qaCard) =
          'Q' :: ((':' :: ' ' ::
            (q.1 ++ '\n' :: 'A' :: ':' :: ' ' :: q.2)) ++ tj) := by
        rw [htj]
        rfl
      rw [hJ, blkAux2_start 'Q' (by decide) (by decide), ← hJ]
      have hrec : blkAux 0 [] [] (joinBlocks (qaCard q :: qs.map qaCard)) =
          qaCard q :: qs.map qaCard := ih q.1 q.2 hq1 hq2 hqs
      rw [hrec]
      simp

theorem filterMap_cards :
    ∀ ps : List (List Char × List Char),
      (∀ p ∈ ps, parseQuizBlock (qaCard p) = some p) →
      (ps.map qaCard).filterMap parseQuizBlock = ps := by
  intro ps
  induction ps with
  | nil => intro h; rfl
  | cons p ps ih =>
      intro h
      rw [List.map_cons, List.filterMap_cons, h p (List.mem_cons_self _ _),
        ih (fun r hr => h r (List.mem_cons_of_mem _ hr))]

theorem joinBlocks_rev_head :
    ∀ (ps : List (List Char × List Char)) (p : List Char × List Char),
      (∀ q ∈ p :: ps, q.2 ≠ [] ∧
        (∀ c, q.2.reverse.head? = some c → isPySpace c = false)) →
      ∀ c, (joinBlocks ((p :: ps).map qaCard)).reverse.head? = some c →
        isPySpace c = false := by
  intro ps
  induction ps with
  | nil =>
      intro p h c hc
      obtain ⟨h1, h2⟩ := h p (List.mem_cons_self _ _)
      have e : joinBlocks ((p :: []).map qaCard) =
          (('Q' :: ':' :: ' ' :: p.1) ++ ['\n', 'A', ':', ' ']) ++ p.2 := by
        show joinBlocks [qaCard p] = _
        rw [show joinBlocks [qaCard p] = qaCard p from rfl]
        simp [qaCard]
      rw [e, List.reverse_append] at hc
      rw [List.head?_append_of_ne_nil _ (by simp [h1])] at hc
      exact h2 c hc
  | cons q qs ih =>
      intro p h c hc
      have e : joinBlocks ((p :: q :: qs).map qaCard) =
          qaCard p ++ ('\n' :: '\n' :: joinBlocks ((q :: qs).map qaCard)) := rfl
      rw [e, List.reverse_append] at hc
      have e2 : ('\n' :: '\n' :: joinBlocks ((q :: qs).map qaCard)).reverse =
          (joinBlocks ((q :: qs).map qaCard)).reverse ++ ['\n', '\n'] := by
        simp
      rw [e2, List.append_assoc] at hc
      obtain ⟨tj, htj⟩ := joinBlocks_cons (qaCard q) (qs.map qaCard)
      have hJne : (joinBlocks ((q :: qs).map qaCard)).reverse ≠ [] := by
        rw [List.map_cons, htj]
        simp [qaCard]
      rw [List.head?_append_of_ne_nil _ hJne] at hc
      exact ih q (fun r hr => h r (List.mem_cons_of_mem _ hr)) c hc

/-- C4 counterexample: quiz cleaning is not idempotent.  On the input
`"A: 4\nQ: \n\njunk"` one pass keeps the first block (the `Q:` label is
followed by a single space, captured as the question `""`), producing
`"Q: \nA: 4"`; on the second pass the greedy `\s*` of `Q:\s*(.+)`
crosses the line break and captures `"A: 4"` as the question, yielding
`"Q: A: 4\nA: 4"` — a different string. -/
theorem c4_clean_quiz_not_idempotent :
    clean_quiz (clean_quiz "A: 4\nQ: \n\njunk") ≠
      clean_quiz "A: 4\nQ: \n\njunk" := by
  decide

/-- C4 (amended): quiz cleaning is idempotent on every input whose kept
blocks all have a non-empty extracted question, a non-empty extracted
answer, and a question that does not contain the substring `"A:"`; in
general idempotence fails (see the counterexample, where a kept block
has an empty question). -/
theorem c4_clean_quiz_idempotent_amended (raw : String)
    (h : ∀ p ∈ cleanPairsQ raw,
      p.1 ≠ [] ∧ p.2 ≠ [] ∧ hasLabel aLabel p.1 = false) :
    clean_quiz (clean_quiz raw) = clean_quiz raw := by
  cases hpq : cleanPairsQ raw with
  | nil =>
      rw [clean_quiz_of_nil hpq]
      exact clean_quiz_of_nil hpq
  | cons p ps =>
      have hmem : ∀ q ∈ p :: ps, q ∈ cleanPairsQ raw := by
        rw [hpq]
        exact fun q hq => hq
      have hshape := fun q hq => cleanPairsQ_shape (hmem q hq)
      have hcond := fun q hq => h q (hmem q hq)
      have hparse : ∀ q ∈ p :: ps, parseQuizBlock (qaCard q) = some q := by
        intro q hq
        obtain ⟨hs1, hs2, hn1, hn2⟩ := hshape q hq
        obtain ⟨he1, he2, hA⟩ := hcond q hq
        have hxh : ∀ c, q.1.head? = some c → isPySpace c = false := by
          intro c hc
          exact pyStrip_head (by rw [hs1]; exact hc)
        have hyh : ∀ c, q.2.head? = some c → isPySpace c = false := by
          intro c hc
          exact pyStrip_head (by rw [hs2]; exact hc)
        exact parseQuizBlock_card q.1 q.2 he1 he2 hxh hyh hn1 hn2 hs1 hs2 hA
      have hr : clean_quiz raw = ⟨joinBlocks (qaCard p :: ps.map qaCard)⟩ :=
        clean_quiz_of_cons hpq
      have hfix : pyStrip (joinBlocks (qaCard p :: ps.map qaCard)) =
          joinBlocks (qaCard p :: ps.map qaCard) := by
        apply pyStrip_fix
        · intro c hc
          obtain ⟨t, ht⟩ := joinBlocks_cons (qaCard p) (ps.map qaCard)
          rw [ht] at hc
          rw [show qaCard p ++ t =
            'Q' :: ((':' :: ' ' ::
              (p.1 ++ '\n' :: 'A' :: ':' :: ' ' :: p.2)) ++ t) from rfl] at hc
          have hcq : 'Q' = c := by simpa using hc
          rw [← hcq]
          rfl
        · intro c hc
          refine joinBlocks_rev_head ps p (fun q hq => ⟨(hcond q hq).2.1, ?_⟩)
            c hc
          intro c0 hc0
          exact pyStrip_revHead (by rw [(hshape q hq).2.1]; exact hc0)
      have hkey : cleanPairsQ ⟨joinBlocks (qaCard p :: ps.map qaCard)⟩ =
          p :: ps := by
        show (pyBlocks (pyStrip
          (joinBlocks (qaCard p :: ps.map qaCard)))).filterMap parseQuizBlock =
            p :: ps
        rw [hfix]
        have hjoin : pyBlocks (joinBlocks (qaCard (p.1, p.2) ::
            ps.map qaCard)) = qaCard (p.1, p.2) :: ps.map qaCard :=
          pyBlocks_join ps p.1 p.2 (hshape p (List.mem_cons_self _ _)).2.2.1
            (hshape p (List.mem_cons_self _ _)).2.2.2
            (fun q hq => ⟨(hshape q (List.mem_cons_of_mem _ hq)).2.2.1,
              (hshape q (List.mem_cons_of_mem _ hq)).2.2.2⟩)
        rw [show (pyBlocks (joinBlocks (qaCard p :: ps.map qaCard)) :
            List (List Char)) = qaCard p :: ps.map qaCard from hjoin]
        exact filterMap_cards (p :: ps) hparse
      rw [hr]
      exact clean_quiz_of_cons hkey

theorem c4_clean_quiz_idempotent_witness :
    clean_quiz (clean_quiz "Q: What is 2+2?\nA: 4\n\njunk") =
      clean_quiz "Q: What is 2+2?\nA: 4\n\njunk" :=
  c4_clean_quiz_idempotent_amended "Q: What is 2+2?\nA: 4\n\njunk" (by decide)

end EchoText

